import Mathlib

/-!
Verification of the model-fallback and two-stage generation orchestration of
the repository. The registry functions (getFallbackChain, getDefaultModel,
getNextFallback, shouldRetry) are embedded from the fallback-chain module;
the retry/fallback driver, the planning stage, the usage accumulation, the
usage-limit guard and the usage-tracking persistence are embedded from the
chat route (api.chat-nonstream.ts, function chatAction). JavaScript `x || d`
defaulting is modelled explicitly so that falsy values ("" and 0) pick the
default, and thrown errors are modelled with Except.
-/

namespace ModelFallback

/-- JavaScript `x || d` on an optional string: `undefined` and the empty
string are falsy and select the default. -/
def jsOrStr (x : Option String) (d : String) : String :=
  match x with
  | none => d
  | some s => if s = "" then d else s

/-- JavaScript `x || d` on an optional number: `undefined` and `0` are falsy
and select the default. -/
def jsOrNat (x : Option Nat) (d : Nat) : Nat :=
  match x with
  | none => d
  | some n => if n = 0 then d else n

/-- Substring test on character lists, used to model JavaScript
`String.prototype.includes`. -/
def listContainsSub (haystack needle : List Char) : Bool :=
  match haystack with
  | [] => needle.isEmpty
  | c :: t => needle.isPrefixOf (c :: t) || listContainsSub t needle

/-- JavaScript `haystack.includes(needle)`. -/
def strIncludes (haystack needle : String) : Bool :=
  listContainsSub haystack.toList needle.toList

/-- JavaScript `s.toLowerCase()`, modelled characterwise (the markers the
driver compares against are plain ASCII). -/
def strToLower (s : String) : String :=
  String.mk (s.toList.map Char.toLower)

/-- One entry of the fallback chain: `{ model, provider, maxRetries }`. -/
structure FallbackEntry where
  model : String
  provider : String
  maxRetries : Nat
deriving Repr, DecidableEq

/-- The environment variables read by the fallback-chain module; `none`
models an unset variable. -/
structure Env where
  PRIMARY_MODEL : Option String := none
  PRIMARY_PROVIDER : Option String := none
  FALLBACK_MODEL_1 : Option String := none
  FALLBACK_PROVIDER_1 : Option String := none
  FALLBACK_MODEL_2 : Option String := none
  FALLBACK_PROVIDER_2 : Option String := none
  FALLBACK_MODEL_3 : Option String := none
  FALLBACK_PROVIDER_3 : Option String := none
deriving Repr, DecidableEq

/-- The chain construction performed on the first getFallbackChain call:
four entries built from environment variables with the module defaults,
with maxRetries 2, 2, 1, 1. -/
def mkFallbackChain (env : Env) : List FallbackEntry :=
  let PRIMARY_MODEL := jsOrStr env.PRIMARY_MODEL "qwen/qwen3-coder"
  let PRIMARY_PROVIDER := jsOrStr env.PRIMARY_PROVIDER "OpenRouter"
  let FALLBACK_MODEL_1 := jsOrStr env.FALLBACK_MODEL_1 "gemini-2.5-flash"
  let FALLBACK_PROVIDER_1 := jsOrStr env.FALLBACK_PROVIDER_1 "OpenRouter"
  let FALLBACK_MODEL_2 := jsOrStr env.FALLBACK_MODEL_2 "x-ai/grok-4-fast"
  let FALLBACK_PROVIDER_2 := jsOrStr env.FALLBACK_PROVIDER_2 "OpenRouter"
  let FALLBACK_MODEL_3 := jsOrStr env.FALLBACK_MODEL_3 "qwen/qwen3-coder-480b-a35b-instruct"
  let FALLBACK_PROVIDER_3 := jsOrStr env.FALLBACK_PROVIDER_3 "Novita"
  [ { model := PRIMARY_MODEL, provider := PRIMARY_PROVIDER, maxRetries := 2 },
    { model := FALLBACK_MODEL_1, provider := FALLBACK_PROVIDER_1, maxRetries := 2 },
    { model := FALLBACK_MODEL_2, provider := FALLBACK_PROVIDER_2, maxRetries := 1 },
    { model := FALLBACK_MODEL_3, provider := FALLBACK_PROVIDER_3, maxRetries := 1 } ]

/-- getFallbackChain with the module-level cache `_fallbackChain` made
explicit as state: if the cache is set it is returned unchanged, otherwise
the chain is constructed from the environment and cached. -/
def getFallbackChain (env : Env) (cache : Option (List FallbackEntry)) :
    List FallbackEntry × Option (List FallbackEntry) :=
  match cache with
  | some c => (c, some c)
  | none =>
    let c := mkFallbackChain env
    (c, some c)

/-- getDefaultModel: returns getFallbackChain()[0]; indexing a possibly
empty list yields an Option. -/
def getDefaultModel (env : Env) (cache : Option (List FallbackEntry)) :
    Option FallbackEntry × Option (List FallbackEntry) :=
  let r := getFallbackChain env cache
  (r.1.head?, r.2)

/-- getNextFallback: findIndex of the first entry whose model equals
currentModel; null when not found or when that index is the last one,
otherwise the entry at the following index. -/
def getNextFallback (chain : List FallbackEntry) (currentModel : String) :
    Option FallbackEntry :=
  match chain.findIdx? (fun f => f.model == currentModel) with
  | none => none
  | some currentIndex =>
    if currentIndex + 1 ≥ chain.length then none
    else chain.get? (currentIndex + 1)

/-- The transient-failure markers of shouldRetry. -/
def retryableErrors : List String :=
  ["overloaded", "rate limit", "timeout", "network", "429", "503", "500"]

/-- A JavaScript error value as the driver observes it: an optional
`message` field (`error?.message`). -/
structure JsError where
  message : Option String
deriving Repr, DecidableEq

/-- shouldRetry(error, currentRetry, model): looks the model up in the
chain; false when absent; otherwise true exactly when the lowercased error
message contains one of the retryable markers and currentRetry is below the
maxRetries of the found entry. -/
def shouldRetry (chain : List FallbackEntry) (error : JsError)
    (currentRetry : Nat) (model : String) : Bool :=
  match chain.find? (fun f => f.model == model) with
  | none => false
  | some fallback =>
    let errorMessage := jsOrStr (error.message.map strToLower) ""
    let isRetryable := retryableErrors.any (fun err => strIncludes errorMessage err)
    isRetryable && decide (currentRetry < fallback.maxRetries)

/-- The error-classification part of shouldRetry on its own: the lowercased
message contains one of the retryable markers. -/
def isRetryableMessage (error : JsError) : Bool :=
  retryableErrors.any
    (fun err => strIncludes (jsOrStr (error.message.map strToLower) "") err)

/-- A token-usage object returned by a sub-call; every field may be absent
(JavaScript `undefined`), defaulted with `|| 0` on accumulation. -/
structure Usage where
  completionTokens : Option Nat := none
  promptTokens : Option Nat := none
  totalTokens : Option Nat := none
deriving Repr, DecidableEq

/-- The result of a successful generateText call, restricted to the fields
the route uses. -/
structure GenResult where
  text : String
  usage : Option Usage := none
deriving Repr, DecidableEq

/-- Observable side effects of the generation phase: outbound model calls,
log lines (messages elided to short tags), the fixed backoff sleep, and the
db.incrementUsage persistence write. -/
inductive Effect where
  | modelCall (model : String) (attempt : Nat)
  | log (tag : String)
  | sleep (ms : Nat)
  | incrementUsage (userSupabaseId : String) (kind : String) (tokens : Nat)
deriving Repr, DecidableEq

/-- The outbound builder calls of an effect trace, as (model, attempt)
pairs in order. -/
def builderCalls (tr : List Effect) : List (String × Nat) :=
  tr.filterMap (fun e =>
    match e with
    | Effect.modelCall m a => some (m, a)
    | _ => none)

/-- Recognises the persistence write among the effects. -/
def isPersistenceWrite : Effect → Bool
  | Effect.incrementUsage _ _ _ => true
  | _ => false

/-- JavaScript `lastError || new Error(′All models failed′)` thrown on chain
exhaustion. -/
def jsOrErr (x : Option JsError) : JsError :=
  match x with
  | none => { message := some "All models failed" }
  | some e => e

/-- The inner retry loop of the driver (`for attempt = 0..maxRetries`):
each attempt calls the builder oracle `gen` with the current model and the
attempt index; on success the loop stops with the result; on failure the
error is remembered and, if shouldRetry allows it and attempts remain, the
driver sleeps 2000 ms and retries, otherwise the loop stops without
result. Returns (result, lastError, effect trace). -/
def attemptLoop (gen : String → Nat → Except JsError GenResult)
    (chain : List FallbackEntry) (model : String) (maxRetries : Nat)
    (attempt : Nat) (lastError : Option JsError) :
    Option GenResult × Option JsError × List Effect :=
  if _h1 : attempt ≤ maxRetries then
    match gen model attempt with
    | Except.ok r =>
      (some r, lastError, [Effect.modelCall model attempt, Effect.log "generation-successful"])
    | Except.error e =>
      if h2 : shouldRetry chain e attempt model && decide (attempt < maxRetries) then
        let rest := attemptLoop gen chain model maxRetries (attempt + 1) (some e)
        (rest.1, rest.2.1,
          Effect.modelCall model attempt :: Effect.log "retrying" :: Effect.sleep 2000 :: rest.2.2)
      else
        (none, some e, [Effect.modelCall model attempt, Effect.log "failed-after-attempts"])
  else
    (none, lastError, [])
termination_by maxRetries + 1 - attempt
decreasing_by
  simp only [Bool.and_eq_true, decide_eq_true_eq] at h2
  omega

/-- The outer fallback walk of the driver (`while (true)`): look the
current model up in the chain (maxRetries defaulting to 2 when absent or
falsy), run the retry loop, stop on success, otherwise consult
getNextFallback; on exhaustion throw the last error (or a generic error if
none). The source loop is unbounded; `fuel` bounds the walk, and every
claim below supplies fuel at least chain.length + 1, which the walk never
consumes when the chain models are pairwise distinct. -/
def fallbackLoop (gen : String → Nat → Except JsError GenResult)
    (chain : List FallbackEntry) (fuel : Nat)
    (currentModel currentProvider : String) (lastError : Option JsError) :
    Except JsError (GenResult × String × String) × List Effect :=
  match fuel with
  | 0 => (Except.error (jsOrErr lastError), [])
  | fuel + 1 =>
    let fallbackConfig := chain.find? (fun f => f.model == currentModel)
    let maxRetries := jsOrNat (fallbackConfig.map (fun f => f.maxRetries)) 2
    let att := attemptLoop gen chain currentModel maxRetries 0 lastError
    match att.1 with
    | some r =>
      (Except.ok (r, currentModel, currentProvider),
        Effect.log "attempting-generation" :: att.2.2)
    | none =>
      match getNextFallback chain currentModel with
      | none =>
        (Except.error (jsOrErr att.2.1),
          Effect.log "attempting-generation" :: att.2.2 ++ [Effect.log "all-fallback-models-exhausted"])
      | some nextFallback =>
        let next := fallbackLoop gen chain fuel nextFallback.model nextFallback.provider att.2.1
        (next.1,
          Effect.log "attempting-generation" :: att.2.2 ++ Effect.log "switching-to-fallback" :: next.2)

/-- The generation driver as the route runs it: the fallback walk starting
from the initially selected (model, provider), with no previous error and
enough fuel for any walk over pairwise-distinct models. -/
def runDriver (gen : String → Nat → Except JsError GenResult)
    (chain : List FallbackEntry) (startModel startProvider : String) :
    Except JsError (GenResult × String × String) × List Effect :=
  fallbackLoop gen chain (chain.length + 1) startModel startProvider none

/-- The builder calls the driver makes for one chain entry when every call
on it fails with a retryable error: attempts 0 .. maxRetries. -/
def entryCalls (f : FallbackEntry) : List (String × Nat) :=
  (List.range (f.maxRetries + 1)).map (fun a => (f.model, a))

/-- The builder calls of a full exhausting walk: every entry in chain
order, each contributing its maxRetries + 1 attempts. -/
def chainCalls (chain : List FallbackEntry) : List (String × Nat) :=
  (chain.map entryCalls).flatten

/-- The per-request running usage total of the route. -/
structure CumulativeUsage where
  completionTokens : Nat
  promptTokens : Nat
  totalTokens : Nat
deriving Repr, DecidableEq

/-- One accumulation step of the route: `cumulativeUsage.x += usage.x || 0`
for the three fields, skipped entirely when the sub-call reported no usage
object. -/
def addUsage (c : CumulativeUsage) (u : Option Usage) : CumulativeUsage :=
  match u with
  | none => c
  | some usage =>
    { completionTokens := c.completionTokens + usage.completionTokens.getD 0,
      promptTokens := c.promptTokens + usage.promptTokens.getD 0,
      totalTokens := c.totalTokens + usage.totalTokens.getD 0 }

/-- The cumulative usage the route reports after SUCCESS. The accumulator
starts at zero after the planning stage; when the context-optimization path
runs (files present and contextOptimization set), the createSummary and
selectContext usages are added; finally the usage of the successful builder
result is added. The planning call usage is in scope (first argument) but
the route only logs it and never adds it. -/
def reportedUsage (planningUsage : Option Usage) (contextPath : Bool)
    (summaryUsage selectUsage resultUsage : Option Usage) : CumulativeUsage :=
  let cumulative0 : CumulativeUsage :=
    { completionTokens := 0, promptTokens := 0, totalTokens := 0 }
  let cumulative1 :=
    if contextPath then addUsage (addUsage cumulative0 summaryUsage) selectUsage
    else cumulative0
  addUsage cumulative1 resultUsage

/-- The usage-tracking step after a successful generation: db.incrementUsage
is invoked only when userSupabaseId is truthy. -/
def trackUsagePhase (userSupabaseId : Option String) (totalTokens : Nat) :
    List Effect :=
  match userSupabaseId with
  | none => []
  | some uid =>
    if uid = "" then []
    else [Effect.incrementUsage uid "ai_generation" totalTokens]

/-- The generation phase followed by usage tracking: on driver success the
result usage is folded into the running total and the persistence write is
appended to the trace; on driver failure the error propagates to the catch
block and nothing is persisted. -/
def generationAndTracking (gen : String → Nat → Except JsError GenResult)
    (chain : List FallbackEntry) (startModel startProvider : String)
    (userSupabaseId : Option String) (cumulative : CumulativeUsage) :
    Except JsError (GenResult × String × String) × List Effect :=
  match runDriver gen chain startModel startProvider with
  | (Except.ok res, tr) =>
    let cum := addUsage cumulative res.1.usage
    (Except.ok res, tr ++ trackUsagePhase userSupabaseId cum.totalTokens)
  | (Except.error e, tr) => (Except.error e, tr)

/-- A chat message as the route sees it. -/
structure Msg where
  id : String
  role : String
  content : String
deriving Repr, DecidableEq

/-- The planning-call result: Kimi returns the response in the reasoning
field, with text as fallback. -/
structure PlanningResult where
  text : String
  reasoning : Option String
  usage : Option Usage := none
deriving Repr, DecidableEq

/-- The prompt the builder receives after a successful planning stage:
`[Model: m]`, `[Provider: p]` tags followed by the design plan. -/
def formattedPrompt (currentModel currentProvider designPlan : String) : String :=
  "[Model: " ++ currentModel ++ "]\n\n[Provider: " ++ currentProvider ++ "]\n\n" ++ designPlan

/-- The planning stage of chatAction: runs only in build mode when a user
message exists and planning is not disabled; the planning call outcome is
the `planningCall` argument. On success with a nonempty plan, the trailing
message is replaced by the formatted prompt (with a fresh id `newId`); on a
thrown planning error, or an empty plan (which the route turns into a
throw), the message list is returned unmodified. -/
def kimiPlanningStage (chatMode : String) (useKimiPlanning : Option Bool)
    (messages : List Msg) (currentModel currentProvider : String)
    (planningCall : Except JsError PlanningResult) (newId : String) : List Msg :=
  let lastUserMessage := (messages.filter (fun m => m.role == "user")).getLast?
  let kimiEnabled := useKimiPlanning != some false
  if chatMode == "build" && lastUserMessage.isSome && kimiEnabled then
    match planningCall with
    | Except.error _ => messages
    | Except.ok planningResult =>
      let designPlan := jsOrStr planningResult.reasoning planningResult.text
      if designPlan.length == 0 then messages
      else
        messages.dropLast ++
          [{ id := newId, role := "user",
             content := formattedPrompt currentModel currentProvider designPlan }]
  else messages

/-- The message list passed to every builder call: enhancedMessages when it
is strictly longer than the original list, otherwise processedMessages. -/
def builderMessagesInput (enhancedMessages processedMessages messages : List Msg) :
    List Msg :=
  if messages.length < enhancedMessages.length then enhancedMessages
  else processedMessages

/-- The two-stage pipeline of chatAction: the planning stage computes
enhancedMessages, tool invocations are processed over them (`processTool`
abstracts mcpService.processToolInvocations), and the driver runs with the
builder oracle applied to the message list every builder call receives. -/
def chatGenerationPipeline (chatMode : String) (useKimiPlanning : Option Bool)
    (messages : List Msg) (currentModel currentProvider newId : String)
    (planningCall : Except JsError PlanningResult)
    (processTool : List Msg → List Msg)
    (gen : List Msg → String → Nat → Except JsError GenResult)
    (chain : List FallbackEntry) :
    Except JsError (GenResult × String × String) × List Effect :=
  let enhancedMessages :=
    kimiPlanningStage chatMode useKimiPlanning messages currentModel currentProvider
      planningCall newId
  let processedMessages := processTool enhancedMessages
  runDriver (gen (builderMessagesInput enhancedMessages processedMessages messages))
    chain currentModel currentProvider

/-- The user details fetched inside the guard try block. -/
structure UserInfo where
  subscriptionTier : String
  supabaseUserId : Option String
deriving Repr, DecidableEq

/-- The result of canPerformAction. -/
structure CanResult where
  allowed : Bool
  reason : Option String
deriving Repr, DecidableEq

/-- The request-scoped variables the guard block assigns. -/
structure GuardState where
  userSubscriptionTier : String
  userSupabaseId : Option String
deriving Repr, DecidableEq

/-- The early 429 response of the guard. -/
structure LimitResponse where
  status : Nat
  message : String
  limitReached : Bool
deriving Repr, DecidableEq

/-- The usage-limit guard of chatAction: inside one try block the user
details are fetched and canPerformAction is consulted; the 429 response is
returned only when both succeed and the action is disallowed; any thrown
error is caught (logged) and the request proceeds, keeping whatever state
was assigned before the throw ("free" and no supabase id by default). -/
def usageLimitGuard (user : Except JsError UserInfo)
    (canGenerate : Except JsError CanResult) :
    Option LimitResponse × GuardState :=
  match user with
  | Except.error _ =>
    (none, { userSubscriptionTier := "free", userSupabaseId := none })
  | Except.ok u =>
    match canGenerate with
    | Except.error _ =>
      (none, { userSubscriptionTier := u.subscriptionTier, userSupabaseId := u.supabaseUserId })
    | Except.ok cg =>
      if cg.allowed then
        (none, { userSubscriptionTier := u.subscriptionTier, userSupabaseId := u.supabaseUserId })
      else
        (some { status := 429,
                message := jsOrStr cg.reason "AI generation limit reached",
                limitReached := true },
          { userSubscriptionTier := u.subscriptionTier, userSupabaseId := u.supabaseUserId })

/-! Helper lemmas about the registry lookups. -/

theorem shouldRetry_eq (chain : List FallbackEntry) (e : JsError) (c : Nat) (m : String) :
    shouldRetry chain e c m =
      match chain.find? (fun f => f.model == m) with
      | none => false
      | some f => isRetryableMessage e && decide (c < f.maxRetries) := by
  unfold shouldRetry isRetryableMessage
  rfl

theorem find?_model_none (chain : List FallbackEntry) (m : String)
    (h : ∀ f ∈ chain, f.model ≠ m) :
    chain.find? (fun f => f.model == m) = none := by
  rw [List.find?_eq_none]
  intro x hx hp
  exact h x hx (by simpa using hp)

theorem findIdx?_model_none (chain : List FallbackEntry) (m : String)
    (h : ∀ f ∈ chain, f.model ≠ m) :
    chain.findIdx? (fun f => f.model == m) = none := by
  rw [List.findIdx?_eq_none_iff]
  intro x hx
  simpa using h x hx

theorem getNextFallback_none (chain : List FallbackEntry) (m : String)
    (h : ∀ f ∈ chain, f.model ≠ m) :
    getNextFallback chain m = none := by
  unfold getNextFallback
  rw [findIdx?_model_none chain m h]

theorem find?_model_first (pre suf : List FallbackEntry) (cur : FallbackEntry)
    (h : cur.model ∉ pre.map FallbackEntry.model) :
    (pre ++ cur :: suf).find? (fun f => f.model == cur.model) = some cur := by
  rw [List.find?_append]
  have hpre : pre.find? (fun f => f.model == cur.model) = none := by
    rw [List.find?_eq_none]
    intro x hx hpx
    exact h (List.mem_map.mpr ⟨x, hx, by simpa using hpx⟩)
  rw [hpre]
  simp

theorem findIdx?_model_first (pre suf : List FallbackEntry) (cur : FallbackEntry)
    (h : cur.model ∉ pre.map FallbackEntry.model) :
    (pre ++ cur :: suf).findIdx? (fun f => f.model == cur.model) = some pre.length := by
  rw [List.findIdx?_append]
  have hpre : pre.findIdx? (fun f => f.model == cur.model) = none := by
    rw [List.findIdx?_eq_none_iff]
    intro x hx
    by_contra hb
    simp only [Bool.not_eq_false, beq_iff_eq] at hb
    exact h (List.mem_map.mpr ⟨x, hx, hb⟩)
  rw [hpre]
  simp

theorem getNextFallback_first (pre suf : List FallbackEntry) (cur : FallbackEntry)
    (h : cur.model ∉ pre.map FallbackEntry.model) :
    getNextFallback (pre ++ cur :: suf) cur.model = suf.head? := by
  simp only [getNextFallback, findIdx?_model_first pre suf cur h]
  cases suf with
  | nil =>
    simp
  | cons s suf =>
    have hlen : ¬ pre.length + 1 ≥ (pre ++ cur :: s :: suf).length := by
      simp only [List.length_append, List.length_cons]
      omega
    rw [if_neg hlen, List.get?_eq_getElem?, List.getElem?_append_right (by omega)]
    have harith : pre.length + 1 - pre.length = 1 := by omega
    rw [harith]
    simp

/-! Claim theorems (registry, guard and usage accounting). -/

/-- C3: shouldRetry(error, currentRetryCount, model) returns true iff the
model matches a chain entry (the first such entry), the error message
lowercased contains one of the seven transient-failure markers, and
currentRetryCount is strictly below the maxRetries of that entry; in
particular it is false whenever currentRetryCount is at least maxRetries,
regardless of the error classification. -/
theorem shouldRetry_characterization (chain : List FallbackEntry) (error : JsError)
    (currentRetryCount : Nat) (model : String) :
    shouldRetry chain error currentRetryCount model = true ↔
      ∃ f, chain.find? (fun f => f.model == model) = some f ∧
        (∃ marker ∈ ["overloaded", "rate limit", "timeout", "network", "429", "503", "500"],
          strIncludes (jsOrStr (error.message.map strToLower) "") marker = true) ∧
        currentRetryCount < f.maxRetries := by
  rw [shouldRetry_eq]
  cases hf : chain.find? (fun f => f.model == model) with
  | none => simp
  | some f =>
    simp only [Bool.and_eq_true, decide_eq_true_eq, isRetryableMessage, retryableErrors,
      List.any_eq_true, Option.some.injEq]
    constructor
    · rintro ⟨⟨marker, hm, hmarker⟩, hlt⟩
      exact ⟨f, rfl, ⟨marker, hm, hmarker⟩, hlt⟩
    · rintro ⟨g, rfl, ⟨marker, hm, hmarker⟩, hlt⟩
      exact ⟨⟨marker, hm, hmarker⟩, hlt⟩

/-- C3 witness: for the default chain, an error whose message contains
"429" with zero previous retries on the primary model is retried. -/
theorem shouldRetry_characterization_witness :
    shouldRetry (mkFallbackChain {}) { message := some "HTTP 429 Too Many Requests" } 0
      "qwen/qwen3-coder" = true := by
  refine (shouldRetry_characterization (mkFallbackChain {})
    { message := some "HTTP 429 Too Many Requests" } 0 "qwen/qwen3-coder").mpr ?_
  refine ⟨{ model := "qwen/qwen3-coder", provider := "OpenRouter", maxRetries := 2 },
    by decide, ⟨"429", by decide, by decide⟩, by decide⟩

/-- C6 counterexample: configure the chain with PRIMARY_MODEL and
FALLBACK_MODEL_3 both "m". The current model "m" equals the model of the
last chain entry, yet getNextFallback "m" is not the exhaustion sentinel:
findIndex matches the first entry and the second entry is returned. -/
theorem getNextFallback_counterexample :
    ((mkFallbackChain { PRIMARY_MODEL := some "m", FALLBACK_MODEL_3 := some "m" }).getLast?).map
        FallbackEntry.model = some "m" ∧
    getNextFallback (mkFallbackChain { PRIMARY_MODEL := some "m", FALLBACK_MODEL_3 := some "m" })
        "m" ≠ none := by
  decide

/-- C6 amended: getNextFallback returns the entry immediately following the
first entry whose model equals currentModel (exact string match), and
returns the exhaustion sentinel exactly when no entry matches or when that
first matching entry is the last entry. -/
theorem getNextFallback_spec (chain : List FallbackEntry) (currentModel : String) :
    ((∀ f ∈ chain, f.model ≠ currentModel) → getNextFallback chain currentModel = none) ∧
    (∀ pre cur suf, chain = pre ++ cur :: suf → cur.model = currentModel →
      currentModel ∉ pre.map FallbackEntry.model →
      getNextFallback chain currentModel = suf.head?) := by
  constructor
  · exact getNextFallback_none chain currentModel
  · rintro pre cur suf rfl hcur hpre
    subst hcur
    exact getNextFallback_first pre suf cur hpre

/-- C6 amended, witness: on the default chain the entry after the first
fallback model is the second fallback model. -/
theorem getNextFallback_spec_witness :
    getNextFallback (mkFallbackChain {}) "gemini-2.5-flash" =
      some { model := "x-ai/grok-4-fast", provider := "OpenRouter", maxRetries := 1 } := by
  have h := (getNextFallback_spec (mkFallbackChain {}) "gemini-2.5-flash").2
    [{ model := "qwen/qwen3-coder", provider := "OpenRouter", maxRetries := 2 }]
    { model := "gemini-2.5-flash", provider := "OpenRouter", maxRetries := 2 }
    [{ model := "x-ai/grok-4-fast", provider := "OpenRouter", maxRetries := 1 },
     { model := "qwen/qwen3-coder-480b-a35b-instruct", provider := "Novita", maxRetries := 1 }]
    (by decide) (by decide) (by decide)
  simpa using h

/-- C7: getFallbackChain is memoized with the process-wide cache: the first
call (empty cache) builds the chain from the environment and stores it, any
later call returns the stored list unchanged, whatever environment it would
read; and getDefaultModel returns entry 0 of the list getFallbackChain
yields, passing the cache through unchanged. -/
theorem getFallbackChain_memoized :
    (∀ env : Env, getFallbackChain env none = (mkFallbackChain env, some (mkFallbackChain env))) ∧
    (∀ (env : Env) (cached : List FallbackEntry),
      getFallbackChain env (some cached) = (cached, some cached)) ∧
    (∀ (env : Env) (cache : Option (List FallbackEntry)),
      getDefaultModel env cache =
        (((getFallbackChain env cache).1).head?, (getFallbackChain env cache).2)) := by
  exact ⟨fun env => rfl, fun env cached => rfl, fun env cache => rfl⟩

/-- C10: the usage-limit guard fails open. The 429 limit response is
produced exactly when the user fetch and canPerformAction both succeed and
report the action disallowed; when either throws, the guard produces no
response (the caught branch) and the request proceeds with the state
assigned before the throw; and any produced response has status 429 with
limitReached set. -/
theorem usage_guard_fails_open (user : Except JsError UserInfo)
    (canGenerate : Except JsError CanResult) :
    ((usageLimitGuard user canGenerate).1 ≠ none ↔
      ∃ u cg, user = Except.ok u ∧ canGenerate = Except.ok cg ∧ cg.allowed = false) ∧
    (∀ e, user = Except.error e →
      usageLimitGuard user canGenerate =
        (none, { userSubscriptionTier := "free", userSupabaseId := none })) ∧
    (∀ u e, user = Except.ok u → canGenerate = Except.error e →
      usageLimitGuard user canGenerate =
        (none, { userSubscriptionTier := u.subscriptionTier,
                 userSupabaseId := u.supabaseUserId })) ∧
    (∀ r, (usageLimitGuard user canGenerate).1 = some r →
      r.status = 429 ∧ r.limitReached = true) := by
  unfold usageLimitGuard
  rcases user with e | u
  · simp
  · rcases canGenerate with e' | cg
    · simp
    · by_cases hall : cg.allowed
      · simp [hall]
      · simp only [Bool.not_eq_true] at hall
        simp [hall]

/-- C10 witness: a disallowed check produces the 429 response; the response
status and flag follow from the theorem. -/
theorem usage_guard_fails_open_witness :
    ({ status := 429, message := "AI generation limit reached", limitReached := true }
        : LimitResponse).status = 429 ∧
    ({ status := 429, message := "AI generation limit reached", limitReached := true }
        : LimitResponse).limitReached = true :=
  (usage_guard_fails_open
    (Except.ok { subscriptionTier := "free", supabaseUserId := some "u1" })
    (Except.ok { allowed := false, reason := none })).2.2.2
    { status := 429, message := "AI generation limit reached", limitReached := true }
    (by decide)

/-- C1 counterexample: planning returns usage {completion 10, prompt 5} and
the builder call returns usage {completion 20, prompt 8, total 28}, with no
other sub-calls; the reported cumulative usage is not
{completion 30, prompt 13, total 43}, because the route never adds the
planning usage to the accumulator (it only logs it). -/
theorem cumulative_usage_counterexample :
    reportedUsage (some { completionTokens := some 10, promptTokens := some 5 }) false none none
        (some { completionTokens := some 20, promptTokens := some 8, totalTokens := some 28 }) ≠
      { completionTokens := 30, promptTokens := 13, totalTokens := 43 } := by
  decide

/-- C1 amended: the cumulative usage reported after SUCCESS is the sum of
the token-usage objects of the createSummary, selectContext and successful
builder calls only; the planning-call usage does not contribute, and for
the spec example (planning {completion 10, prompt 5}, builder
{completion 20, prompt 8, total 28}) the reported usage is
{completion 20, prompt 8, total 28}. -/
theorem cumulative_usage_excludes_planning :
    (∀ (planningUsage : Option Usage) (contextPath : Bool) (su se ru : Option Usage),
      reportedUsage planningUsage contextPath su se ru =
        addUsage (addUsage (addUsage
            { completionTokens := 0, promptTokens := 0, totalTokens := 0 }
            (if contextPath then su else none))
          (if contextPath then se else none)) ru) ∧
    reportedUsage (some { completionTokens := some 10, promptTokens := some 5 }) false none none
        (some { completionTokens := some 20, promptTokens := some 8, totalTokens := some 28 }) =
      { completionTokens := 20, promptTokens := 8, totalTokens := 28 } := by
  constructor
  · intro p cp su se ru
    cases cp <;> rfl
  · decide

/-! Effect-trace helper lemmas. -/

theorem builderCalls_nil : builderCalls [] = [] := rfl

theorem builderCalls_cons_call (m : String) (a : Nat) (tr : List Effect) :
    builderCalls (Effect.modelCall m a :: tr) = (m, a) :: builderCalls tr := rfl

theorem builderCalls_cons_log (t : String) (tr : List Effect) :
    builderCalls (Effect.log t :: tr) = builderCalls tr := rfl

theorem builderCalls_cons_sleep (n : Nat) (tr : List Effect) :
    builderCalls (Effect.sleep n :: tr) = builderCalls tr := rfl

theorem builderCalls_append (t1 t2 : List Effect) :
    builderCalls (t1 ++ t2) = builderCalls t1 ++ builderCalls t2 :=
  List.filterMap_append t1 t2 _

theorem builderCalls_attempt_block (m : String) (l : List Nat) :
    builderCalls (l.flatMap (fun i =>
        [Effect.modelCall m i, Effect.log "retrying", Effect.sleep 2000])) =
      l.map (fun i => (m, i)) := by
  induction l with
  | nil => rfl
  | cons i l ih =>
    rw [List.flatMap_cons, builderCalls_append, ih]
    rfl

theorem le_jsOrNat_self (n : Nat) : n ≤ jsOrNat (some n) 2 := by
  unfold jsOrNat
  by_cases h : n = 0 <;> simp [h]

/-! Lemmas about the inner retry loop. -/

theorem attemptLoop_ok_first (gen : String → Nat → Except JsError GenResult)
    (chain : List FallbackEntry) (m : String) (B : Nat) (le : Option JsError)
    (r : GenResult) (h : gen m 0 = Except.ok r) :
    attemptLoop gen chain m B 0 le =
      (some r, le, [Effect.modelCall m 0, Effect.log "generation-successful"]) := by
  unfold attemptLoop
  simp [h]

theorem attemptLoop_all_error (gen : String → Nat → Except JsError GenResult)
    (chain : List FallbackEntry) (f : FallbackEntry) (errOf : String → Nat → JsError)
    (hgen : ∀ a, gen f.model a = Except.error (errOf f.model a))
    (hfind : chain.find? (fun g => g.model == f.model) = some f)
    (hret : ∀ a, isRetryableMessage (errOf f.model a) = true) :
    ∀ (k a : Nat) (le : Option JsError), a + k = f.maxRetries →
      attemptLoop gen chain f.model (jsOrNat (some f.maxRetries) 2) a le =
        (none, some (errOf f.model f.maxRetries),
          (List.range' a k).flatMap (fun i =>
            [Effect.modelCall f.model i, Effect.log "retrying", Effect.sleep 2000]) ++
          [Effect.modelCall f.model f.maxRetries, Effect.log "failed-after-attempts"]) := by
  intro k
  induction k with
  | zero =>
    intro a le ha
    have ha' : a = f.maxRetries := by omega
    subst ha'
    have hcond : (shouldRetry chain (errOf f.model f.maxRetries) f.maxRetries f.model &&
        decide (f.maxRetries < jsOrNat (some f.maxRetries) 2)) = false := by
      rw [shouldRetry_eq, hfind]
      simp
    unfold attemptLoop
    rw [dif_pos (le_jsOrNat_self f.maxRetries)]
    simp [hgen, hcond]
  | succ k ih =>
    intro a le ha
    have halt : a < f.maxRetries := by omega
    have hcond : (shouldRetry chain (errOf f.model a) a f.model &&
        decide (a < jsOrNat (some f.maxRetries) 2)) = true := by
      rw [shouldRetry_eq, hfind]
      simp only [Bool.and_eq_true, decide_eq_true_eq]
      exact ⟨⟨hret a, halt⟩, Nat.lt_of_lt_of_le halt (le_jsOrNat_self f.maxRetries)⟩
    unfold attemptLoop
    rw [dif_pos (le_trans (Nat.le_of_lt halt) (le_jsOrNat_self f.maxRetries))]
    simp only [hgen]
    rw [dif_pos hcond, ih (a + 1) (some (errOf f.model a)) (by omega)]
    rw [List.range'_succ]
    simp

theorem attemptLoop_shape (gen : String → Nat → Except JsError GenResult)
    (chain : List FallbackEntry) (m : String) (B : Nat) :
    ∀ (n a : Nat) (le : Option JsError), B + 1 - a ≤ n →
      (∀ c ∈ builderCalls (attemptLoop gen chain m B a le).2.2, c.1 = m) ∧
      (∀ e ∈ (attemptLoop gen chain m B a le).2.2, isPersistenceWrite e = false) ∧
      ((∀ i, ∃ er, gen m i = Except.error er) →
        (attemptLoop gen chain m B a le).1 = none) := by
  intro n
  induction n with
  | zero =>
    intro a le hn
    have ha : ¬ a ≤ B := by omega
    unfold attemptLoop
    rw [dif_neg ha]
    refine ⟨?_, ?_, ?_⟩ <;> simp [builderCalls]
  | succ n ih =>
    intro a le hn
    by_cases ha : a ≤ B
    · unfold attemptLoop
      rw [dif_pos ha]
      cases hg : gen m a with
      | ok r =>
        refine ⟨?_, ?_, ?_⟩
        · intro c hc
          simp [builderCalls] at hc
          simp [hc]
        · intro e he
          simp at he
          rcases he with he | he <;> simp [he, isPersistenceWrite]
        · intro hall
          obtain ⟨er, her⟩ := hall a
          rw [hg] at her
          cases her
      | error e =>
        dsimp only
        by_cases hc2 : (shouldRetry chain e a m && decide (a < B)) = true
        · rw [dif_pos hc2]
          dsimp only
          obtain ⟨ihc, ihp, ihn⟩ := ih (a + 1) (some e) (by omega)
          refine ⟨?_, ?_, ?_⟩
          · intro c hc
            rw [builderCalls_cons_call, builderCalls_cons_log, builderCalls_cons_sleep] at hc
            rcases List.mem_cons.mp hc with hc' | hc'
            · simp [hc']
            · exact ihc c hc'
          · intro x hx
            simp only [List.mem_cons] at hx
            rcases hx with hx | hx | hx | hx
            · simp [hx, isPersistenceWrite]
            · simp [hx, isPersistenceWrite]
            · simp [hx, isPersistenceWrite]
            · exact ihp x hx
          · intro hall
            exact ihn hall
        · rw [dif_neg hc2]
          refine ⟨?_, ?_, ?_⟩
          · intro c hc
            simp [builderCalls] at hc
            simp [hc]
          · intro x hx
            simp at hx
            rcases hx with hx | hx <;> simp [hx, isPersistenceWrite]
          · intro _
            rfl
    · unfold attemptLoop
      rw [dif_neg ha]
      refine ⟨?_, ?_, ?_⟩ <;> simp [builderCalls]

theorem attemptLoop_trace_zero_head (gen : String → Nat → Except JsError GenResult)
    (chain : List FallbackEntry) (m : String) (B : Nat) (le : Option JsError) :
    ∃ rest, (attemptLoop gen chain m B 0 le).2.2 = Effect.modelCall m 0 :: rest := by
  unfold attemptLoop
  rw [dif_pos (Nat.zero_le B)]
  cases hg : gen m 0 with
  | ok r => exact ⟨_, rfl⟩
  | error e =>
    dsimp only
    by_cases hc : (shouldRetry chain e 0 m && decide (0 < B)) = true
    · rw [dif_pos hc]
      exact ⟨_, rfl⟩
    · rw [dif_neg hc]
      exact ⟨_, rfl⟩

/-! Lemmas about the outer fallback walk. -/

theorem nodup_head_not_in_pre (pre suf : List FallbackEntry) (cur : FallbackEntry)
    (hnd : ((pre ++ cur :: suf).map FallbackEntry.model).Nodup) :
    cur.model ∉ pre.map FallbackEntry.model := by
  rw [List.map_append] at hnd
  rcases List.nodup_append.mp hnd with ⟨-, -, hdisj⟩
  intro hmem
  exact hdisj hmem (by simp)

theorem fallbackLoop_no_persistence (gen : String → Nat → Except JsError GenResult)
    (chain : List FallbackEntry) :
    ∀ (fuel : Nat) (cm cp : String) (le : Option JsError),
      ∀ e ∈ (fallbackLoop gen chain fuel cm cp le).2, isPersistenceWrite e = false := by
  intro fuel
  induction fuel with
  | zero =>
    intro cm cp le e he
    simp [fallbackLoop] at he
  | succ fuel ih =>
    intro cm cp le e he
    simp only [fallbackLoop] at he
    obtain ⟨-, hp, -⟩ := attemptLoop_shape gen chain cm
      (jsOrNat ((chain.find? (fun f => f.model == cm)).map (fun f => f.maxRetries)) 2)
      (jsOrNat ((chain.find? (fun f => f.model == cm)).map (fun f => f.maxRetries)) 2 + 1)
      0 le (by omega)
    rcases hatt : (attemptLoop gen chain cm
        (jsOrNat ((chain.find? (fun f => f.model == cm)).map (fun f => f.maxRetries)) 2)
        0 le).1 with _ | r
    · rw [hatt] at he
      rcases hnf : getNextFallback chain cm with _ | nf
      · rw [hnf] at he
        dsimp only at he
        rcases List.mem_cons.mp he with rfl | he2
        · rfl
        · rcases List.mem_append.mp he2 with h3 | h3
          · exact hp e h3
          · rcases List.mem_singleton.mp h3 with rfl
            rfl
      · rw [hnf] at he
        dsimp only at he
        rcases List.mem_cons.mp he with rfl | he2
        · rfl
        · rcases List.mem_append.mp he2 with h3 | h3
          · exact hp e h3
          · rcases List.mem_cons.mp h3 with rfl | h4
            · rfl
            · exact ih nf.model nf.provider _ e h4
    · rw [hatt] at he
      dsimp only at he
      rcases List.mem_cons.mp he with rfl | he2
      · rfl
      · exact hp e he2

theorem fallbackLoop_exhaust (gen : String → Nat → Except JsError GenResult)
    (errOf : String → Nat → JsError)
    (hgen : ∀ m a, gen m a = Except.error (errOf m a))
    (hret : ∀ m a, isRetryableMessage (errOf m a) = true) :
    ∀ (suf pre : List FallbackEntry) (cur : FallbackEntry) (le : Option JsError) (fuel : Nat),
      ((pre ++ cur :: suf).map FallbackEntry.model).Nodup →
      suf.length + 1 ≤ fuel →
      (fallbackLoop gen (pre ++ cur :: suf) fuel cur.model cur.provider le).1 =
        Except.error (errOf ((cur :: suf).getLast (List.cons_ne_nil cur suf)).model
          ((cur :: suf).getLast (List.cons_ne_nil cur suf)).maxRetries) ∧
      builderCalls (fallbackLoop gen (pre ++ cur :: suf) fuel cur.model cur.provider le).2 =
        chainCalls (cur :: suf) := by
  intro suf
  induction suf with
  | nil =>
    intro pre cur le fuel hnd hfuel
    obtain ⟨fu, rfl⟩ : ∃ fu, fuel = fu + 1 := ⟨fuel - 1, by omega⟩
    have hpre := nodup_head_not_in_pre pre [] cur hnd
    have hfind := find?_model_first pre [] cur hpre
    have hnext := getNextFallback_first pre [] cur hpre
    have hA := attemptLoop_all_error gen (pre ++ cur :: []) cur errOf
      (fun a => hgen cur.model a) hfind (fun a => hret cur.model a)
      cur.maxRetries 0 le (by omega)
    simp only [fallbackLoop, hfind, Option.map_some']
    rw [hA]
    dsimp only
    rw [show getNextFallback (pre ++ cur :: []) cur.model = none from hnext]
    dsimp only
    constructor
    · rfl
    · simp only [builderCalls_append, builderCalls_cons_log, builderCalls_cons_call,
        builderCalls_nil, builderCalls_attempt_block, List.append_nil, List.append_assoc]
      unfold chainCalls entryCalls
      simp only [List.map_cons, List.map_nil, List.flatten_cons, List.flatten_nil,
        List.append_nil, List.range_eq_range', List.range'_1_concat]
      simp
  | cons nxt suf ih =>
    intro pre cur le fuel hnd hfuel
    obtain ⟨fu, rfl⟩ : ∃ fu, fuel = fu + 1 := ⟨fuel - 1, by omega⟩
    have hpre := nodup_head_not_in_pre pre (nxt :: suf) cur hnd
    have hfind := find?_model_first pre (nxt :: suf) cur hpre
    have hnext := getNextFallback_first pre (nxt :: suf) cur hpre
    have hA := attemptLoop_all_error gen (pre ++ cur :: nxt :: suf) cur errOf
      (fun a => hgen cur.model a) hfind (fun a => hret cur.model a)
      cur.maxRetries 0 le (by omega)
    have hassoc : pre ++ cur :: nxt :: suf = (pre ++ [cur]) ++ nxt :: suf := by
      simp
    have hnd' : (((pre ++ [cur]) ++ nxt :: suf).map FallbackEntry.model).Nodup := by
      rw [← hassoc]
      exact hnd
    have hIH := ih (pre ++ [cur]) nxt (some (errOf cur.model cur.maxRetries)) fu hnd'
      (by simp at hfuel; omega)
    rw [← hassoc] at hIH
    simp only [fallbackLoop, hfind, Option.map_some']
    rw [hA]
    dsimp only
    rw [show getNextFallback (pre ++ cur :: nxt :: suf) cur.model = some nxt from hnext]
    dsimp only
    constructor
    · rw [List.getLast_cons (List.cons_ne_nil nxt suf)]
      exact hIH.1
    · simp only [builderCalls_append, builderCalls_cons_log, builderCalls_cons_call,
        builderCalls_nil, builderCalls_attempt_block, List.append_nil, List.append_assoc,
        hIH.2]
      unfold chainCalls entryCalls
      simp only [List.map_cons, List.map_nil, List.flatten_cons, List.flatten_nil,
        List.append_nil, List.range_eq_range', List.range'_1_concat]
      simp

/-- General form of chain exhaustion for the driver entry point. -/
theorem runDriver_exhaust_general (chain : List FallbackEntry)
    (errOf : String → Nat → JsError) (hne : chain ≠ [])
    (hnd : (chain.map FallbackEntry.model).Nodup)
    (hret : ∀ m a, isRetryableMessage (errOf m a) = true) :
    (runDriver (fun m a => Except.error (errOf m a)) chain
        (chain.head hne).model (chain.head hne).provider).1 =
      Except.error (errOf (chain.getLast hne).model (chain.getLast hne).maxRetries) ∧
    builderCalls (runDriver (fun m a => Except.error (errOf m a)) chain
        (chain.head hne).model (chain.head hne).provider).2 =
      chainCalls chain := by
  cases chain with
  | nil => cases hne rfl
  | cons c rest =>
    have h := fallbackLoop_exhaust (fun m a => Except.error (errOf m a)) errOf
      (fun m a => rfl) hret rest [] c none ((c :: rest).length + 1)
      (by simpa using hnd) (by simp)
    simpa [runDriver] using h

/-- C2: for a fallback chain of pairwise-distinct model strings, starting
at entry 0, when every builder call fails with a retryable error the driver
makes exactly maxRetries + 1 builder calls for every entry, visiting the
entries in chain order (the chainCalls trace), and finally throws the last
error encountered: the error of the final attempt on the last entry. -/
theorem chain_exhaustion (chain : List FallbackEntry) (errOf : String → Nat → JsError)
    (hne : chain ≠ [])
    (hnd : (chain.map FallbackEntry.model).Nodup)
    (hret : ∀ m a, isRetryableMessage (errOf m a) = true) :
    (runDriver (fun m a => Except.error (errOf m a)) chain
        (chain.head hne).model (chain.head hne).provider).1 =
      Except.error (errOf (chain.getLast hne).model (chain.getLast hne).maxRetries) ∧
    builderCalls (runDriver (fun m a => Except.error (errOf m a)) chain
        (chain.head hne).model (chain.head hne).provider).2 =
      chainCalls chain :=
  runDriver_exhaust_general chain errOf hne hnd hret

/-- C2 witness: the default chain with a constant retryable timeout error
makes 3 + 3 + 2 + 2 calls in chain order and surfaces the timeout error. -/
theorem chain_exhaustion_witness :
    (runDriver (fun m a => Except.error { message := some "timeout" })
        (mkFallbackChain {}) "qwen/qwen3-coder" "OpenRouter").1 =
      Except.error { message := some "timeout" } ∧
    builderCalls (runDriver (fun m a => Except.error { message := some "timeout" })
        (mkFallbackChain {}) "qwen/qwen3-coder" "OpenRouter").2 =
      chainCalls (mkFallbackChain {}) := by
  have hr : isRetryableMessage { message := some "timeout" } = true := by decide
  have h := chain_exhaustion (mkFallbackChain {})
    (fun m a => { message := some "timeout" }) (by decide) (by decide)
    (fun m a => hr)
  exact h

/-- The walk visits no model outside the failing prefix and the succeeding
entry: every builder call recorded while the walk runs from the head of
`mid ++ sEntry :: post` names a model of `mid` or sEntry, provided the
first attempt on sEntry succeeds. -/
theorem fallbackLoop_success_models (gen : String → Nat → Except JsError GenResult)
    (sEntry : FallbackEntry) (post : List FallbackEntry) (r : GenResult)
    (hsucc : gen sEntry.model 0 = Except.ok r) :
    ∀ (mid pre : List FallbackEntry) (start : FallbackEntry) (le : Option JsError) (fuel : Nat),
      ((pre ++ (mid ++ sEntry :: post)).map FallbackEntry.model).Nodup →
      mid.length + 1 ≤ fuel →
      (mid ++ sEntry :: post).head? = some start →
      ∀ c ∈ builderCalls ((fallbackLoop gen (pre ++ (mid ++ sEntry :: post)) fuel
          start.model start.provider le)).2,
        c.1 ∈ mid.map FallbackEntry.model ++ [sEntry.model] := by
  intro mid
  induction mid with
  | nil =>
    intro pre start le fuel hnd hfuel hstart c hc
    obtain rfl : sEntry = start := by simpa using hstart
    obtain ⟨fu, rfl⟩ : ∃ fu, fuel = fu + 1 := ⟨fuel - 1, by omega⟩
    simp only [List.nil_append] at hnd hc
    have hpre := nodup_head_not_in_pre pre post sEntry hnd
    have hfind := find?_model_first pre post sEntry hpre
    simp only [fallbackLoop, hfind, Option.map_some'] at hc
    rw [attemptLoop_ok_first gen (pre ++ sEntry :: post) sEntry.model
      (jsOrNat (some sEntry.maxRetries) 2) le r hsucc] at hc
    dsimp only at hc
    rw [builderCalls_cons_log, builderCalls_cons_call, builderCalls_cons_log,
      builderCalls_nil] at hc
    rcases List.mem_singleton.mp hc with rfl
    simp
  | cons m0 mid ih =>
    intro pre start le fuel hnd hfuel hstart c hc
    have hsm : start = m0 := by
      have h0 := hstart
      simp only [List.cons_append, List.head?_cons, Option.some.injEq] at h0
      exact h0.symm
    subst hsm
    obtain ⟨fu, rfl⟩ : ∃ fu, fuel = fu + 1 := ⟨fuel - 1, by omega⟩
    simp only [List.cons_append] at hnd hc
    have hpre := nodup_head_not_in_pre pre (mid ++ sEntry :: post) start hnd
    have hfind := find?_model_first pre (mid ++ sEntry :: post) start hpre
    have hnext := getNextFallback_first pre (mid ++ sEntry :: post) start hpre
    obtain ⟨start', hstart'⟩ : ∃ s, (mid ++ sEntry :: post).head? = some s := by
      cases mid <;> exact ⟨_, rfl⟩
    obtain ⟨hcm, -, -⟩ := attemptLoop_shape gen (pre ++ start :: (mid ++ sEntry :: post))
      start.model (jsOrNat (some start.maxRetries) 2)
      (jsOrNat (some start.maxRetries) 2 + 1) 0 le (by omega)
    simp only [fallbackLoop, hfind, Option.map_some'] at hc
    rcases hatt : (attemptLoop gen (pre ++ start :: (mid ++ sEntry :: post)) start.model
        (jsOrNat (some start.maxRetries) 2) 0 le).1 with _ | r0
    · rw [hatt] at hc
      rw [show getNextFallback (pre ++ start :: (mid ++ sEntry :: post)) start.model =
        some start' from hnext.trans hstart'] at hc
      dsimp only at hc
      rw [builderCalls_append, builderCalls_cons_log, builderCalls_cons_log] at hc
      rcases List.mem_append.mp hc with h3 | h3
      · have := hcm c h3
        simp [this]
      · have hassoc : pre ++ start :: (mid ++ sEntry :: post) =
            (pre ++ [start]) ++ (mid ++ sEntry :: post) := by simp
        rw [hassoc] at h3
        have hnd' : (((pre ++ [start]) ++ (mid ++ sEntry :: post)).map
            FallbackEntry.model).Nodup := by
          rw [← hassoc]
          exact hnd
        have := ih (pre ++ [start]) start' _ fu hnd' (by simp at hfuel; omega) hstart' c h3
        simp only [List.map_cons, List.cons_append]
        exact List.mem_cons_of_mem _ (by simpa using this)
    · rw [hatt] at hc
      dsimp only at hc
      rw [builderCalls_cons_log] at hc
      have := hcm c hc
      simp [this]

/-- When every entry before sEntry always fails and the first attempt on
sEntry succeeds, the walk terminates with the sEntry result. -/
theorem fallbackLoop_success_result (gen : String → Nat → Except JsError GenResult)
    (sEntry : FallbackEntry) (post : List FallbackEntry) (r : GenResult)
    (hsucc : gen sEntry.model 0 = Except.ok r) :
    ∀ (mid pre : List FallbackEntry) (start : FallbackEntry) (le : Option JsError) (fuel : Nat),
      ((pre ++ (mid ++ sEntry :: post)).map FallbackEntry.model).Nodup →
      mid.length + 1 ≤ fuel →
      (mid ++ sEntry :: post).head? = some start →
      (∀ f ∈ mid, ∀ a, ∃ e, gen f.model a = Except.error e) →
      (fallbackLoop gen (pre ++ (mid ++ sEntry :: post)) fuel
          start.model start.provider le).1 =
        Except.ok (r, sEntry.model, sEntry.provider) := by
  intro mid
  induction mid with
  | nil =>
    intro pre start le fuel hnd hfuel hstart hfail
    obtain rfl : sEntry = start := by simpa using hstart
    obtain ⟨fu, rfl⟩ : ∃ fu, fuel = fu + 1 := ⟨fuel - 1, by omega⟩
    simp only [List.nil_append] at hnd ⊢
    have hpre := nodup_head_not_in_pre pre post sEntry hnd
    have hfind := find?_model_first pre post sEntry hpre
    simp only [fallbackLoop, hfind, Option.map_some']
    rw [attemptLoop_ok_first gen (pre ++ sEntry :: post) sEntry.model
      (jsOrNat (some sEntry.maxRetries) 2) le r hsucc]
  | cons m0 mid ih =>
    intro pre start le fuel hnd hfuel hstart hfail
    have hsm : start = m0 := by
      have h0 := hstart
      simp only [List.cons_append, List.head?_cons, Option.some.injEq] at h0
      exact h0.symm
    subst hsm
    obtain ⟨fu, rfl⟩ : ∃ fu, fuel = fu + 1 := ⟨fuel - 1, by omega⟩
    simp only [List.cons_append] at hnd ⊢
    have hpre := nodup_head_not_in_pre pre (mid ++ sEntry :: post) start hnd
    have hfind := find?_model_first pre (mid ++ sEntry :: post) start hpre
    have hnext := getNextFallback_first pre (mid ++ sEntry :: post) start hpre
    obtain ⟨start', hstart'⟩ : ∃ s, (mid ++ sEntry :: post).head? = some s := by
      cases mid <;> exact ⟨_, rfl⟩
    obtain ⟨-, -, hnone⟩ := attemptLoop_shape gen (pre ++ start :: (mid ++ sEntry :: post))
      start.model (jsOrNat (some start.maxRetries) 2)
      (jsOrNat (some start.maxRetries) 2 + 1) 0 le (by omega)
    have hattnone := hnone (fun i => hfail start (List.mem_cons_self start mid) i)
    simp only [fallbackLoop, hfind, Option.map_some']
    rw [hattnone]
    rw [show getNextFallback (pre ++ start :: (mid ++ sEntry :: post)) start.model =
      some start' from hnext.trans hstart']
    dsimp only
    have hassoc : pre ++ start :: (mid ++ sEntry :: post) =
        (pre ++ [start]) ++ (mid ++ sEntry :: post) := by simp
    rw [hassoc]
    have hnd' : (((pre ++ [start]) ++ (mid ++ sEntry :: post)).map
        FallbackEntry.model).Nodup := by
      rw [← hassoc]
      exact hnd
    exact ih (pre ++ [start]) start' _ fu hnd' (by simp at hfuel; omega) hstart'
      (fun f hf a => hfail f (List.mem_cons_of_mem start hf) a)

/-- C5: with pairwise-distinct models, starting at entry 0, if the builder
call for entry k succeeds on its first attempt then every builder call of
the request names a model among entries 0..k, no chain entry after k is
ever invoked, and (when the earlier entries kept failing, which is how the
walk reaches entry k) the driver exits the walk with the entry-k result. -/
theorem success_stops_walk (chain : List FallbackEntry)
    (gen : String → Nat → Except JsError GenResult) (k : Nat) (hk : k < chain.length)
    (hne : chain ≠ []) (hnd : (chain.map FallbackEntry.model).Nodup) (r : GenResult)
    (hsucc : gen (chain.get ⟨k, hk⟩).model 0 = Except.ok r) :
    (∀ c ∈ builderCalls (runDriver gen chain (chain.head hne).model
        (chain.head hne).provider).2,
      c.1 ∈ (chain.take (k + 1)).map FallbackEntry.model) ∧
    (∀ j (hj : j < chain.length), k < j → ∀ a,
      ((chain.get ⟨j, hj⟩).model, a) ∉ builderCalls (runDriver gen chain
        (chain.head hne).model (chain.head hne).provider).2) ∧
    ((∀ j (hj : j < chain.length), j < k → ∀ a, ∃ er,
        gen (chain.get ⟨j, hj⟩).model a = Except.error er) →
      (runDriver gen chain (chain.head hne).model (chain.head hne).provider).1 =
        Except.ok (r, (chain.get ⟨k, hk⟩).model, (chain.get ⟨k, hk⟩).provider)) := by
  have hdrop : chain.drop k = chain.get ⟨k, hk⟩ :: chain.drop (k + 1) := by
    rw [List.drop_eq_getElem_cons hk]
    simp
  have hdecomp : chain = chain.take k ++ (chain.get ⟨k, hk⟩ :: chain.drop (k + 1)) := by
    conv_lhs => rw [← List.take_append_drop k chain]
    rw [hdrop]
  have hlen : (chain.take k).length = k := by
    rw [List.length_take]
    omega
  have hstart : (chain.take k ++ chain.get ⟨k, hk⟩ :: chain.drop (k + 1)).head? =
      some (chain.head hne) := by
    rw [← hdecomp]
    exact List.head?_eq_head hne
  have hfuel : (chain.take k).length + 1 ≤ chain.length + 1 := by
    rw [hlen]
    omega
  have hndX : (([] ++ (chain.take k ++ chain.get ⟨k, hk⟩ :: chain.drop (k + 1))).map
      FallbackEntry.model).Nodup := by
    rw [List.nil_append, ← hdecomp]
    exact hnd
  have htake : (chain.take (k + 1)).map FallbackEntry.model =
      (chain.take k).map FallbackEntry.model ++ [(chain.get ⟨k, hk⟩).model] := by
    rw [List.take_succ, List.getElem?_eq_getElem hk]
    simp only [Option.toList_some, List.map_append, List.map_cons, List.map_nil,
      List.get_eq_getElem]
  have hmodels := fallbackLoop_success_models gen (chain.get ⟨k, hk⟩) (chain.drop (k + 1)) r
    hsucc (chain.take k) [] (chain.head hne) none (chain.length + 1) hndX hfuel hstart
  rw [List.nil_append, ← hdecomp] at hmodels
  refine ⟨?_, ?_, ?_⟩
  · intro c hc
    rw [htake]
    exact hmodels c hc
  · intro j hj hkj a hmem
    have hin : (chain.get ⟨j, hj⟩).model ∈
        (chain.take (k + 1)).map FallbackEntry.model := by
      rw [htake]
      exact hmodels _ hmem
    rw [List.map_take] at hin
    obtain ⟨i, hi, hieq⟩ := List.mem_take_iff_getElem.mp hin
    have hil : i < chain.length := by
      simp at hi
      omega
    have hik : i ≤ k := by
      simp at hi
      omega
    have hmi : i < (chain.map FallbackEntry.model).length := by simpa using hil
    have hmj : j < (chain.map FallbackEntry.model).length := by simpa using hj
    have h1 : (chain.map FallbackEntry.model).get ⟨i, hmi⟩ = (chain.get ⟨j, hj⟩).model := by
      simpa using hieq
    have h2 : (chain.map FallbackEntry.model).get ⟨j, hmj⟩ = (chain.get ⟨j, hj⟩).model := by
      simp
    have hfin := hnd.get_inj_iff.mp (h1.trans h2.symm)
    have : i = j := by simpa using hfin
    omega
  · intro hfail
    have hfailmid : ∀ f ∈ chain.take k, ∀ a, ∃ er, gen f.model a = Except.error er := by
      intro f hf a
      obtain ⟨i, hi, hieq⟩ := List.mem_take_iff_getElem.mp hf
      have hik : i < k := by
        simp at hi
        omega
      have hil : i < chain.length := by omega
      have hgf := hfail i hil hik a
      rw [show chain.get ⟨i, hil⟩ = f by simpa using hieq] at hgf
      exact hgf
    have hres := fallbackLoop_success_result gen (chain.get ⟨k, hk⟩) (chain.drop (k + 1)) r
      hsucc (chain.take k) [] (chain.head hne) none (chain.length + 1) hndX hfuel hstart
      hfailmid
    rw [List.nil_append, ← hdecomp] at hres
    exact hres

/-- C5 witness: entry 0 of the default chain keeps failing with a timeout
and entry 1 succeeds on the first attempt: the driver stops at entry 1. -/
theorem success_stops_walk_witness :
    (runDriver (fun m a => if m == "qwen/qwen3-coder"
        then Except.error { message := some "timeout" }
        else Except.ok { text := "done" })
      (mkFallbackChain {}) "qwen/qwen3-coder" "OpenRouter").1 =
      Except.ok ({ text := "done" }, "gemini-2.5-flash", "OpenRouter") := by
  have h := (success_stops_walk (mkFallbackChain {})
    (fun m a => if m == "qwen/qwen3-coder"
        then Except.error { message := some "timeout" }
        else Except.ok { text := "done" })
    1 (by decide) (by decide) (by decide) { text := "done" } rfl).2.2
  refine h ?_
  intro j hj hj1 a
  have hj0 : j = 0 := by omega
  subst hj0
  exact ⟨{ message := some "timeout" }, rfl⟩

/-- The driver always issues at least one builder call. -/
theorem runDriver_calls_ne_nil (gen : String → Nat → Except JsError GenResult)
    (chain : List FallbackEntry) (m p : String) :
    builderCalls (runDriver gen chain m p).2 ≠ [] := by
  unfold runDriver
  simp only [fallbackLoop]
  obtain ⟨rest, hr⟩ := attemptLoop_trace_zero_head gen chain m
    (jsOrNat ((chain.find? (fun f => f.model == m)).map (fun f => f.maxRetries)) 2) none
  rcases hatt : (attemptLoop gen chain m
      (jsOrNat ((chain.find? (fun f => f.model == m)).map (fun f => f.maxRetries)) 2)
      0 none).1 with _ | r
  · rw [hatt]
    dsimp only
    rcases hnf : getNextFallback chain m with _ | nf
    · dsimp only
      rw [hr]
      simp [builderCalls_append, builderCalls_cons_log, builderCalls_cons_call]
    · dsimp only
      rw [hr]
      simp [builderCalls_append, builderCalls_cons_log, builderCalls_cons_call]
  · rw [hatt]
    dsimp only
    rw [hr]
    simp [builderCalls_cons_log, builderCalls_cons_call]

/-- C4: a planning-stage failure is never fatal: in build mode with
planning enabled, when the planning call throws, the enhanced message list
is the original one, the builder stage still runs on the tool-processed
original messages, and at least one builder call is issued. -/
theorem planning_failure_nonfatal (messages : List Msg) (useKimiPlanning : Option Bool)
    (currentModel currentProvider newId : String) (e : JsError)
    (processTool : List Msg → List Msg)
    (gen : List Msg → String → Nat → Except JsError GenResult)
    (chain : List FallbackEntry)
    (hkimi : (useKimiPlanning != some false) = true)
    (hlast : ((messages.filter (fun m => m.role == "user")).getLast?).isSome = true) :
    kimiPlanningStage "build" useKimiPlanning messages currentModel currentProvider
        (Except.error e) newId = messages ∧
    chatGenerationPipeline "build" useKimiPlanning messages currentModel currentProvider
        newId (Except.error e) processTool gen chain =
      runDriver (gen (processTool messages)) chain currentModel currentProvider ∧
    builderCalls (chatGenerationPipeline "build" useKimiPlanning messages currentModel
        currentProvider newId (Except.error e) processTool gen chain).2 ≠ [] := by
  have hstage : kimiPlanningStage "build" useKimiPlanning messages currentModel
      currentProvider (Except.error e) newId = messages := by
    have hcond : (("build" == "build") &&
        ((messages.filter (fun m => m.role == "user")).getLast?).isSome &&
        (useKimiPlanning != some false)) = true := by
      rw [hlast, hkimi]
      rfl
    simp only [kimiPlanningStage]
    rw [if_pos hcond]
  have hpipe : chatGenerationPipeline "build" useKimiPlanning messages currentModel
      currentProvider newId (Except.error e) processTool gen chain =
      runDriver (gen (processTool messages)) chain currentModel currentProvider := by
    simp only [chatGenerationPipeline]
    rw [hstage]
    unfold builderMessagesInput
    rw [if_neg (lt_irrefl messages.length)]
  refine ⟨hstage, hpipe, ?_⟩
  rw [hpipe]
  exact runDriver_calls_ne_nil (gen (processTool messages)) chain currentModel currentProvider

/-- C4 witness: a concrete one-message build request whose planning call
throws still reaches the builder with the untouched message list. -/
theorem planning_failure_nonfatal_witness :
    kimiPlanningStage "build" none [{ id := "1", role := "user", content := "make an app" }]
        "qwen/qwen3-coder" "OpenRouter"
        (Except.error { message := some "planning down" }) "id2" =
      [{ id := "1", role := "user", content := "make an app" }] :=
  (planning_failure_nonfatal [{ id := "1", role := "user", content := "make an app" }] none
    "qwen/qwen3-coder" "OpenRouter" "id2" { message := some "planning down" }
    (fun l => l) (fun _ _ _ => Except.error { message := some "x" }) (mkFallbackChain {})
    (by decide) (by decide)).1

/-- C9: a request with a model override matching no chain entry gets
exactly one builder attempt: shouldRetry is false for the unknown model (no
retry), getNextFallback yields the sentinel (no fallback), the result is
returned on success and the error is rethrown immediately on failure, with
no chain entry ever attempted. -/
theorem unknown_model_single_attempt (chain : List FallbackEntry)
    (gen : String → Nat → Except JsError GenResult) (model provider : String)
    (hnotin : ∀ f ∈ chain, f.model ≠ model) :
    (∀ e c, shouldRetry chain e c model = false) ∧
    getNextFallback chain model = none ∧
    (∀ r, gen model 0 = Except.ok r →
      (runDriver gen chain model provider).1 = Except.ok (r, model, provider) ∧
      builderCalls (runDriver gen chain model provider).2 = [(model, 0)]) ∧
    (∀ e, gen model 0 = Except.error e →
      (runDriver gen chain model provider).1 = Except.error e ∧
      builderCalls (runDriver gen chain model provider).2 = [(model, 0)]) := by
  have hfind : chain.find? (fun f => f.model == model) = none :=
    find?_model_none chain model hnotin
  have hnf : getNextFallback chain model = none := getNextFallback_none chain model hnotin
  have hsr : ∀ e c, shouldRetry chain e c model = false := by
    intro e c
    rw [shouldRetry_eq, hfind]
  refine ⟨hsr, hnf, ?_, ?_⟩
  · intro r hok
    unfold runDriver
    simp only [fallbackLoop, hfind, Option.map_none']
    rw [attemptLoop_ok_first gen chain model (jsOrNat none 2) none r hok]
    exact ⟨rfl, rfl⟩
  · intro e herr
    have hcond : ¬ ((shouldRetry chain e 0 model &&
        decide (0 < jsOrNat none 2)) = true) := by
      rw [hsr e 0]
      simp
    have hatt : attemptLoop gen chain model (jsOrNat none 2) 0 none =
        (none, some e, [Effect.modelCall model 0, Effect.log "failed-after-attempts"]) := by
      unfold attemptLoop
      rw [dif_pos (Nat.zero_le (jsOrNat none 2))]
      simp only [herr]
      rw [dif_neg hcond]
    unfold runDriver
    simp only [fallbackLoop, hfind, Option.map_none']
    rw [hatt]
    dsimp only
    rw [hnf]
    exact ⟨rfl, rfl⟩

/-- C9 witness: an unlisted override model fails once and the error is
rethrown with a single builder call recorded. -/
theorem unknown_model_single_attempt_witness :
    (runDriver (fun m a => Except.error { message := some "boom" }) (mkFallbackChain {})
        "custom/unlisted-model" "OpenRouter").1 = Except.error { message := some "boom" } ∧
    builderCalls (runDriver (fun m a => Except.error { message := some "boom" })
        (mkFallbackChain {}) "custom/unlisted-model" "OpenRouter").2 =
      [("custom/unlisted-model", 0)] :=
  (unknown_model_single_attempt (mkFallbackChain {})
    (fun m a => Except.error { message := some "boom" }) "custom/unlisted-model" "OpenRouter"
    (by decide)).2.2.2 { message := some "boom" } rfl

/-- C8: no persistence write occurs before SUCCESS: the driver trace of any
request contains no db.incrementUsage effect (attempts only make the model
call, log and sleep), and when the generation phase ends in an error (any
failed walk or chain exhaustion) the whole trace, usage tracking included,
still contains no persistence write. -/
theorem no_persistence_before_success (gen : String → Nat → Except JsError GenResult)
    (chain : List FallbackEntry) (startModel startProvider : String)
    (userSupabaseId : Option String) (cumulative : CumulativeUsage) :
    ((runDriver gen chain startModel startProvider).2.filter isPersistenceWrite = []) ∧
    (∀ e, (generationAndTracking gen chain startModel startProvider userSupabaseId
        cumulative).1 = Except.error e →
      (generationAndTracking gen chain startModel startProvider userSupabaseId
        cumulative).2.filter isPersistenceWrite = []) := by
  have hdrv : (runDriver gen chain startModel startProvider).2.filter
      isPersistenceWrite = [] := by
    rw [List.filter_eq_nil_iff]
    intro a ha
    unfold runDriver at ha
    have := fallbackLoop_no_persistence gen chain (chain.length + 1) startModel
      startProvider none a ha
    simp [this]
  refine ⟨hdrv, ?_⟩
  intro e he
  unfold generationAndTracking at he ⊢
  rcases hrun : runDriver gen chain startModel startProvider with ⟨res, tr⟩
  rw [hrun] at hdrv he
  rcases res with er | res2
  · dsimp only at he ⊢
    exact hdrv
  · exact absurd (show Except.ok res2 = Except.error e from he) (by simp)

/-- C8 witness: a request whose every builder call fails with a retryable
timeout exhausts the chain and persists nothing. -/
theorem no_persistence_before_success_witness :
    (generationAndTracking (fun m a => Except.error { message := some "timeout" })
        (mkFallbackChain {}) "qwen/qwen3-coder" "OpenRouter" (some "user-1")
        { completionTokens := 0, promptTokens := 0, totalTokens := 0 }).2.filter
      isPersistenceWrite = [] := by
  have hr : isRetryableMessage { message := some "timeout" } = true := by decide
  have h := runDriver_exhaust_general (mkFallbackChain {})
    (fun m a => { message := some "timeout" }) (by decide) (by decide) (fun m a => hr)
  have h1 : (runDriver (fun m a => Except.error { message := some "timeout" })
      (mkFallbackChain {}) "qwen/qwen3-coder" "OpenRouter").1 =
      Except.error { message := some "timeout" } := h.1
  refine (no_persistence_before_success (fun m a => Except.error { message := some "timeout" })
    (mkFallbackChain {}) "qwen/qwen3-coder" "OpenRouter" (some "user-1")
    { completionTokens := 0, promptTokens := 0, totalTokens := 0 }).2
    { message := some "timeout" } ?_
  unfold generationAndTracking
  rcases hrun : runDriver (fun m a => Except.error { message := some "timeout" })
      (mkFallbackChain {}) "qwen/qwen3-coder" "OpenRouter" with ⟨res, tr⟩
  rw [hrun] at h1
  dsimp only at h1
  subst h1
  rfl

end ModelFallback
